import Mathlib

/-!
# Verification of the sweetpad simulator log-streaming core

Shallow embedding of `src/simulators/commands.ts` (function
`streamLogsToChannel` together with its stdout/stderr/error/close handlers).

Strings are modelled as `List Char` (`Str`).  JavaScript string operations
used by the source are modelled faithfully:

* `String.prototype.includes`         → `isSubstrOf`
* `String.prototype.toLowerCase`      → `lowerStr` (ASCII-faithful)
* `String.prototype.split('\n')`      → `splitOnNl`
* `subsystemCategory.split(':').pop() || 'Log'` → `categoryOf`
* the `logPattern` regular expression `(?:loaded|from|by) .*?<base>\.debug\.dylib`
  built with the `i` flag and tested with `.test`   → `logPatternTest`
  (the app base name is treated as a literal, which is the semantics of the
  constructed regex whenever the name has no regex metacharacters)
* the `messageExtractor` regular expression
  `.*?\(.*?\.debug\.dylib\)\s+\[(.*?)\]\s+(.*)` applied with `.match`
  → `outerScan`, a backtracking matcher specialised to exactly this pattern:
  the lazy `.*?` prefixes scan left to right, `\s+` is a nonempty whitespace
  run, `(.*?)\]` captures up to the first closing bracket that lets the rest
  of the pattern succeed, and the final greedy `(.*)` takes the remainder of
  the line.  `.` is modelled as "any character"; the matcher is only ever
  applied to the output of `splitOnNl`, whose results contain no `'\n'`, so
  this agrees with JavaScript's `.` (which excludes `'\n'`).

The subprocess lifecycle (`logsProcess` global, kill/clear/banner/spawn
sequence, stderr and close handlers) is modelled as an explicit state
machine `SessionState` / `stepEvent`.  The `osAlive` field is ghost state
recording which spawned OS processes are still running, so that best-effort
kill failures (the swallowed `try { kill } catch {}`) can be modelled:
a failed kill leaves the old process in `osAlive` but the session proceeds
identically on every observable field.
-/

set_option autoImplicit false

namespace Sweetpad

/-- Strings of the TypeScript source, modelled as lists of characters. -/
abbrev Str := List Char

/-- Convert a Lean string literal to the `Str` model. -/
def strOf (s : String) : Str := s.toList

/-- JavaScript `toLowerCase`, faithful on ASCII (all characters the source's
patterns and keyword sets use). -/
def lowerStr (s : Str) : Str := s.map Char.toLower

/-- JavaScript `\s` whitespace class (the characters that can occur in a
single log line). -/
def jsWs (c : Char) : Bool :=
  c == ' ' || c == '\t' || c == '\n' || c == '\r' || c == '\x0b' ||
  c == '\x0c' || c == ' '

/-- Whether a character occurs in a string. -/
def hasChar (ch : Char) : Str → Bool
  | [] => false
  | c :: t => c == ch || hasChar ch t

/-- JavaScript `hay.includes(needle)`: substring containment. -/
def isSubstrOf (needle : Str) : Str → Bool
  | [] => needle.isEmpty
  | c :: t => needle.isPrefixOf (c :: t) || isSubstrOf needle t

/-- The first character (if any) is not JavaScript whitespace. -/
def headNotWs : Str → Bool
  | [] => true
  | c :: _ => !jsWs c

/-- Drop a (possibly empty) maximal run of whitespace. -/
def dropWs (s : Str) : Str := s.dropWhile jsWs

/-- Match `\s+` (greedy, at least one whitespace character followed by a
non-whitespace continuation) and return the remainder. -/
def skipWs1 : Str → Option Str
  | [] => none
  | c :: t => if jsWs c then some (dropWs t) else none

/-- Match `(.*?)\]\s+(.*)` with the backtracking order of a lazy group:
try each `]` from the left; at each, `\s+` must match, and the final greedy
`(.*)` takes everything after the maximal whitespace run.  `acc` holds the
reversed characters captured so far. -/
def tryBrackets : Str → Str → Option (Str × Str)
  | [], _ => none
  | c :: rest, acc =>
      if c = ']' then
        match skipWs1 rest with
        | some m => some (acc.reverse, m)
        | none => tryBrackets rest (c :: acc)
      else tryBrackets rest (c :: acc)

/-- Match `\s+\[(.*?)\]\s+(.*)` (the part of `messageExtractor` after the
`.debug.dylib)` marker) and return the two captures. -/
def tailMatch (s : Str) : Option (Str × Str) :=
  match skipWs1 s with
  | none => none
  | some r =>
      match r with
      | '[' :: r2 => tryBrackets r2 []
      | _ => none

/-- The literal `".debug.dylib)"` that closes the parenthesised marker of
`messageExtractor`. -/
def dylibClose : Str := strOf ".debug.dylib)"

/-- Match `.*?\.debug\.dylib\)` followed by `tailMatch`, scanning the text
after a `'('` for occurrences of `".debug.dylib)"` left to right (the lazy
inner `.*?`), backtracking to the next occurrence when the tail fails. -/
def innerScan : Str → Option (Str × Str)
  | [] => none
  | c :: rest =>
      if dylibClose.isPrefixOf (c :: rest) then
        match tailMatch ((c :: rest).drop dylibClose.length) with
        | some r => some r
        | none => innerScan rest
      else innerScan rest

/-- `line.match(messageExtractor)`: the leading lazy `.*?` tries `'('`
positions left to right; at each, `innerScan` handles the rest of the
pattern.  Returns the two captures (`subsystemCategory`, `message`). -/
def outerScan : Str → Option (Str × Str)
  | [] => none
  | c :: rest =>
      if c = '(' then
        match innerScan rest with
        | some r => some r
        | none => outerScan rest
      else outerScan rest

/-- JavaScript `s.split('\n')`. -/
def splitOnNl : Str → List Str
  | [] => [[]]
  | c :: t =>
      let r := splitOnNl t
      if c = '\n' then [] :: r
      else
        match r with
        | [] => [[c]]
        | h :: t2 => (c :: h) :: t2

/-- The last `':'`-separated segment of a string:
`s.split(':').pop()`. -/
def afterLastColon : Str → Str
  | [] => []
  | c :: t =>
      if hasChar ':' t then afterLastColon t
      else if c = ':' then t
      else c :: t

/-- `subsystemCategory.split(':').pop() || 'Log'`. -/
def categoryOf (sc : Str) : Str :=
  let a := afterLastColon sc
  if a.isEmpty then strOf "Log" else a

/-- The log-level detection chain of the stdout handler: each level tests
the whole lowercased line for a space-prefixed keyword, or the lowercased
`subsystemCategory` capture for the bare keyword. -/
def detectLevel (line sc : Str) : String :=
  let l := lowerStr line
  let c := lowerStr sc
  if isSubstrOf (strOf " error") l || isSubstrOf (strOf "error") c then "error"
  else if isSubstrOf (strOf " warn") l || isSubstrOf (strOf "warn") c then "warning"
  else if isSubstrOf (strOf " info") l || isSubstrOf (strOf "info") c then "info"
  else if isSubstrOf (strOf " debug") l || isSubstrOf (strOf "debug") c then "debug"
  else if isSubstrOf (strOf " fault") l || isSubstrOf (strOf "fault") c then "fault"
  else "default"

/-- The `logLevelToEmoji` table (`detectLevel` only produces its keys, so
the `|| logLevelToEmoji.default` fallback of the source is unreachable). -/
def emojiFor : String → Str
  | "info" => strOf "ℹ️"
  | "debug" => strOf "🪲"
  | "error" => strOf "❌"
  | "fault" => strOf "💥"
  | "warning" => strOf "⚠️"
  | _ => strOf "📝"

/-- The fixed separator appended after each formatted block. -/
def blockSep : Str := strOf "───────────────"

/-- `debugDylibPattern`: the base app name with `".debug.dylib"` appended. -/
def dylibToken (base : Str) : Str := base ++ strOf ".debug.dylib"

/-- The ignorable diagnostic substring excluded by the containment branch of
the stdout filter. -/
def gpLit : Str := strOf "getpwuid_r did not find a match"

/-- The three alternatives of `logPattern`, each followed by the space the
pattern requires. -/
def loosePrefixes : List Str := [strOf "loaded ", strOf "from ", strOf "by "]

/-- Scan for `(?:loaded|from|by) .*?tok`: at each position, some alternative
matches and `tok` occurs in the remainder. -/
def looseScan (tok : Str) : Str → Bool
  | [] => false
  | c :: rest =>
      (loosePrefixes.any fun p =>
        p.isPrefixOf (c :: rest) && isSubstrOf tok ((c :: rest).drop p.length)) ||
      looseScan tok rest

/-- `logPattern.test(line)` for
`new RegExp("(?:loaded|from|by) .*?" + base + "\\.debug\\.dylib", "i")`. -/
def logPatternTest (base line : Str) : Bool :=
  looseScan (lowerStr base ++ strOf ".debug.dylib") (lowerStr line)

/-- The stdout filter condition:
`logPattern.test(line) || (line.toLowerCase().includes(token.toLowerCase()) && !line.includes("getpwuid_r did not find a match"))`. -/
def filterPasses (base line : Str) : Bool :=
  logPatternTest base line ||
  (isSubstrOf (lowerStr (dylibToken base)) (lowerStr line) && !isSubstrOf gpLit line)

/-- Outcome of classifying one stdout line, mirroring the branches of the
stdout handler: dropped by the filter, structured match (category, message,
level), or raw passthrough of the whole line. -/
inductive Outcome where
  | notMatched
  | matched (category message : Str) (level : String)
  | rawPassthrough (line : Str)
  deriving DecidableEq

/-- Classification of one stdout line, as performed by the body of the
`for (const line of lines)` loop. -/
def classifyLine (base line : Str) : Outcome :=
  if filterPasses base line then
    match outerScan line with
    | some (sc, msg) => .matched (categoryOf sc) msg (detectLevel line sc)
    | none => .rawPassthrough line
  else .notMatched

/-- The display lines appended for one classification outcome. -/
def formatOutcome : Outcome → List Str
  | .notMatched => []
  | .matched c m lvl => [emojiFor lvl ++ strOf "  [" ++ c ++ strOf "]", m, blockSep]
  | .rawPassthrough l => [l]

/-- The display lines appended for one stdout line. -/
def emitLine (base line : Str) : List Str :=
  formatOutcome (classifyLine base line)

/-- The display lines appended for one stdout data chunk:
`data.toString().split('\n')`, then each line through the filter and
formatter in order.  No text is carried over between chunks. -/
def processChunk (base chunk : Str) : List Str :=
  ((splitOnNl chunk).map (emitLine base)).flatten

/-- `appName.replace(/\.app$/, '')`: strip one trailing `".app"`. -/
def stripDotApp (s : Str) : Str :=
  if (strOf ".app").isSuffixOf s then s.take (s.length - 4) else s

/-- The state owned by `streamLogsToChannel` and its handlers.

* `logsProcess` — the module-level `logsProcess` handle (process ids are
  modelled as the naturals handed out by `nextId`);
* `sink` — the lines currently in the output channel (`clear` resets it,
  `appendLine` appends);
* `curBase` — the `baseAppName` captured by the handlers of the current
  session;
* `killSignals` — ghost trace of the process ids that were sent `SIGTERM`;
* `osAlive` — ghost state: the spawned OS processes still running (a failed
  best-effort kill leaves its target here). -/
structure SessionState where
  logsProcess : Option Nat
  sink : List Str
  curBase : Str
  nextId : Nat
  killSignals : List Nat
  osAlive : List Nat

/-- The three lines appended after `outputChannel.clear()`: the filter
banner, the start-time line, and the divider. -/
def bannerLines (base time : Str) : List Str :=
  [strOf "🔎 Filtering logs for: " ++ dylibToken base,
   strOf "⏱️ Started: " ++ time,
   strOf "───────────────────────────────────"]

/-- `streamLogsToChannel(simulatorUdid, appName)` up to the point where the
handlers are attached: kill any existing process (best-effort, failures
swallowed — `killFails` says whether the `SIGTERM` was actually delivered),
null the handle, clear the channel, append the banner, spawn the new
process and install its handle.  `time` is the value of
`new Date().toLocaleTimeString()`. -/
def startStream (appName time : Str) (killFails : Bool) (s : SessionState) : SessionState :=
  let s1 :=
    match s.logsProcess with
    | some p =>
        { s with logsProcess := none,
                 killSignals := s.killSignals ++ [p],
                 osAlive := if killFails then s.osAlive else s.osAlive.erase p }
    | none => s
  let base := stripDotApp appName
  { s1 with sink := bannerLines base time,
            curBase := base,
            logsProcess := some s1.nextId,
            osAlive := s1.osAlive ++ [s1.nextId],
            nextId := s1.nextId + 1 }

/-- The stdout `data` handler: split the chunk on newlines and run every
line through the filter/classifier/formatter. -/
def stdoutStep (chunk : Str) (s : SessionState) : SessionState :=
  { s with sink := s.sink ++ processChunk s.curBase chunk }

/-- The stderr `data` handler: unconditionally append one error-tagged
line. -/
def stderrStep (chunk : Str) (s : SessionState) : SessionState :=
  { s with sink := s.sink ++ [strOf "❌ Error: " ++ chunk] }

/-- The `error` event handler: append one error-tagged line. -/
def errorStep (msg : Str) (s : SessionState) : SessionState :=
  { s with sink := s.sink ++ [strOf "❌ Log streaming error: " ++ msg] }

/-- The warning status line of the `close` handler. -/
def exitWarnLine (code : Int) : Str :=
  strOf ("⚠️ Log streaming process exited with code " ++ toString code)

/-- The `close` handler: `if (code !== 0 && code !== null)` append the
warning status line; either way null the handle (`none` models a `null`
exit code, i.e. termination by signal).  The exited process leaves the
ghost `osAlive` set. -/
def closeStep (code : Option Int) (s : SessionState) : SessionState :=
  let s1 :=
    match code with
    | none => s
    | some c => if c = 0 then s else { s with sink := s.sink ++ [exitWarnLine c] }
  { s1 with logsProcess := none,
            osAlive :=
              match s.logsProcess with
              | some p => s.osAlive.erase p
              | none => s.osAlive }

/-- The externally visible events of one process lifetime. -/
inductive SessionEvent where
  | start (appName time : Str) (killFails : Bool)
  | stdoutData (chunk : Str)
  | stderrData (chunk : Str)
  | errorEvt (msg : Str)
  | closeEvt (code : Option Int)

/-- One event step. -/
def stepEvent (s : SessionState) : SessionEvent → SessionState
  | .start app time kf => startStream app time kf s
  | .stdoutData c => stdoutStep c s
  | .stderrData c => stderrStep c s
  | .errorEvt m => errorStep m s
  | .closeEvt code => closeStep code s

/-- Run a sequence of events. -/
def runEvents (s : SessionState) (es : List SessionEvent) : SessionState :=
  es.foldl stepEvent s

/-- The state at module load: `logsProcess = null`, empty channel. -/
def initialState : SessionState :=
  { logsProcess := none, sink := [], curBase := [], nextId := 0,
    killSignals := [], osAlive := [] }

/-- An event whose best-effort kill (if any) actually terminates its
target. -/
def killsSucceed : SessionEvent → Bool
  | .start _ _ kf => !kf
  | _ => true

/-- The handle/ghost-process invariant: the one `logsProcess` handle is
exactly the set of running spawned processes. -/
def SInv (s : SessionState) : Prop :=
  (s.logsProcess = none → s.osAlive = []) ∧
  (∀ p, s.logsProcess = some p → s.osAlive = [p])

/-- A line of the shape `<pre>(<base>.debug.dylib) [<tag>] <msg>`: the
structured layout of the claims, written in the associativity the scanner
lemmas use. -/
def structLine (pre base tag msg : Str) : Str :=
  pre ++ '(' :: (base ++ (dylibClose ++ (' ' :: '[' :: (tag ++ ']' :: ' ' :: msg))))

/-- The app base name used by all concrete examples. -/
def myApp : Str := strOf "MyApp"

/-! ## Helper lemmas -/

theorem lowerStr_append (a b : Str) : lowerStr (a ++ b) = lowerStr a ++ lowerStr b :=
  List.map_append _ a b

theorem isPrefixOf_self_append (n t : Str) : n.isPrefixOf (n ++ t) = true := by
  induction n with
  | nil => simp [List.isPrefixOf]
  | cons c m ih => simp [List.isPrefixOf, ih]

theorem isSubstrOf_nil (h : Str) : isSubstrOf [] h = true := by
  cases h <;> simp [isSubstrOf, List.isPrefixOf]

theorem isSubstrOf_self_append (n t : Str) : isSubstrOf n (n ++ t) = true := by
  cases n with
  | nil => exact isSubstrOf_nil _
  | cons c m => simp [isSubstrOf, isPrefixOf_self_append]

theorem isSubstrOf_append_left (n x h : Str) (hs : isSubstrOf n h = true) :
    isSubstrOf n (x ++ h) = true := by
  induction x with
  | nil => simpa using hs
  | cons c t ih => simp [isSubstrOf, ih]

theorem hasChar_append (ch : Char) (a b : Str) :
    hasChar ch (a ++ b) = (hasChar ch a || hasChar ch b) := by
  induction a with
  | nil => simp [hasChar]
  | cons c t ih => simp [hasChar, ih, Bool.or_assoc]

theorem afterLastColon_append (sub cat : Str) (hc : hasChar ':' cat = false) :
    afterLastColon (sub ++ ':' :: cat) = cat := by
  induction sub with
  | nil => simp [afterLastColon, hc]
  | cons c t ih =>
      have h : hasChar ':' (t ++ ':' :: cat) = true := by
        simp [hasChar_append, hasChar]
      simpa [afterLastColon, h] using ih

theorem categoryOf_append (sub cat : Str) (hc : hasChar ':' cat = false)
    (hne : cat ≠ []) :
    categoryOf (sub ++ ':' :: cat) = cat := by
  simp [categoryOf, afterLastColon_append sub cat hc, hne]

theorem dropWs_of_headNotWs (s : Str) (h : headNotWs s = true) : dropWs s = s := by
  cases s with
  | nil => rfl
  | cons c t =>
      have hc : jsWs c = false := by simpa [headNotWs] using h
      simp [dropWs, List.dropWhile_cons, hc]

theorem tryBrackets_spec :
    ∀ tag : Str, hasChar ']' tag = false →
    ∀ rest m : Str, skipWs1 rest = some m →
    ∀ acc : Str, tryBrackets (tag ++ ']' :: rest) acc = some (acc.reverse ++ tag, m) := by
  intro tag
  induction tag with
  | nil =>
      intro _ rest m hr acc
      simp [tryBrackets, hr]
  | cons c t ih =>
      intro ht rest m hr acc
      have hc : (c == ']') = false ∧ hasChar ']' t = false := by
        simpa [hasChar, Bool.or_eq_false_iff] using ht
      have hne : ¬(c = ']') := by simpa using hc.1
      simpa [tryBrackets, hne, List.append_assoc] using ih hc.2 rest m hr (c :: acc)

theorem tailMatch_spec (tag msg : Str) (ht : hasChar ']' tag = false)
    (hm : headNotWs msg = true) :
    tailMatch (' ' :: '[' :: (tag ++ ']' :: ' ' :: msg)) = some (tag, msg) := by
  have h1 : skipWs1 (' ' :: msg) = some msg := by
    simp [skipWs1, jsWs, dropWs_of_headNotWs msg hm]
  have h2 : jsWs '[' = false := by decide
  simpa [tailMatch, skipWs1, jsWs, dropWs, List.dropWhile_cons, h2]
    using tryBrackets_spec tag ht (' ' :: msg) msg h1 []

theorem innerScan_at (b rest : Str) (out : Str × Str)
    (hb : hasChar '.' b = false) (h : tailMatch rest = some out) :
    innerScan (b ++ (dylibClose ++ rest)) = some out := by
  induction b with
  | nil =>
      have hshape : dylibClose ++ rest = '.' :: (strOf "debug.dylib)" ++ rest) := rfl
      have hpre : dylibClose.isPrefixOf ('.' :: (strOf "debug.dylib)" ++ rest)) = true :=
        isPrefixOf_self_append dylibClose rest
      have hdrop : ('.' :: (strOf "debug.dylib)" ++ rest)).drop dylibClose.length = rest :=
        List.drop_left dylibClose rest
      simp only [List.nil_append, hshape]
      simp [innerScan, hpre, hdrop, h]
  | cons c t ih =>
      have hc : (c == '.') = false ∧ hasChar '.' t = false := by
        simpa [hasChar, Bool.or_eq_false_iff] using hb
      have hne : ¬(c = '.') := by simpa using hc.1
      have hbeq : ('.' == c) = false := beq_eq_false_iff_ne.mpr (Ne.symm hne)
      have hnp : dylibClose.isPrefixOf (c :: (t ++ (dylibClose ++ rest))) = false := by
        show List.isPrefixOf ('.' :: strOf "debug.dylib)") _ = false
        simp [List.isPrefixOf, hbeq]
      simpa [innerScan, hnp] using ih hc.2

theorem outerScan_pre (pre r : Str) (out : Str × Str)
    (hpre : hasChar '(' pre = false) (h : innerScan r = some out) :
    outerScan (pre ++ '(' :: r) = some out := by
  induction pre with
  | nil => simp [outerScan, h]
  | cons c t ih =>
      have hc : (c == '(') = false ∧ hasChar '(' t = false := by
        simpa [hasChar, Bool.or_eq_false_iff] using hpre
      have hne : ¬(c = '(') := by simpa using hc.1
      simpa [outerScan, hne] using ih hc.2

theorem token_in_structLine (pre base tag msg : Str) :
    isSubstrOf (lowerStr (dylibToken base)) (lowerStr (structLine pre base tag msg)) = true := by
  have h0 : dylibClose = strOf ".debug.dylib" ++ [')'] := rfl
  have hshape : structLine pre base tag msg
      = (pre ++ ['(']) ++ (dylibToken base ++ (')' :: ' ' :: '[' :: (tag ++ ']' :: ' ' :: msg))) := by
    simp [structLine, dylibToken, h0, List.append_assoc]
  rw [hshape, lowerStr_append]
  apply isSubstrOf_append_left
  rw [lowerStr_append]
  exact isSubstrOf_self_append _ _

theorem classify_structLine (pre base tag msg : Str)
    (hpre : hasChar '(' pre = false)
    (hbase : hasChar '.' base = false)
    (htag : hasChar ']' tag = false)
    (hmsg : headNotWs msg = true)
    (hgp : isSubstrOf gpLit (structLine pre base tag msg) = false) :
    classifyLine base (structLine pre base tag msg) =
      .matched (categoryOf tag) msg (detectLevel (structLine pre base tag msg) tag) := by
  have hfil : filterPasses base (structLine pre base tag msg) = true := by
    simp [filterPasses, token_in_structLine pre base tag msg, hgp]
  have hscan : outerScan (structLine pre base tag msg) = some (tag, msg) :=
    outerScan_pre pre _ _ hpre
      (innerScan_at base _ _ hbase (tailMatch_spec tag msg htag hmsg))
  simp [classifyLine, hfil, hscan]

theorem detectLevel_error_of_cat (line sc : Str)
    (h : isSubstrOf (strOf "error") (lowerStr sc) = true) :
    detectLevel line sc = "error" := by
  simp [detectLevel, h]

theorem detectLevel_error_of_line (line sc : Str)
    (h : isSubstrOf (strOf " error") (lowerStr line) = true) :
    detectLevel line sc = "error" := by
  simp [detectLevel, h]

theorem detectLevel_warning_of_cat (line sc : Str)
    (h1 : isSubstrOf (strOf " error") (lowerStr line) = false)
    (h2 : isSubstrOf (strOf "error") (lowerStr sc) = false)
    (h3 : isSubstrOf (strOf "warn") (lowerStr sc) = true) :
    detectLevel line sc = "warning" := by
  simp [detectLevel, h1, h2, h3]

theorem detectLevel_warning_of_line (line sc : Str)
    (h1 : isSubstrOf (strOf " error") (lowerStr line) = false)
    (h2 : isSubstrOf (strOf "error") (lowerStr sc) = false)
    (h3 : isSubstrOf (strOf " warn") (lowerStr line) = true) :
    detectLevel line sc = "warning" := by
  simp [detectLevel, h1, h2, h3]

theorem detectLevel_debug_of_cat (line sc : Str)
    (h1 : isSubstrOf (strOf " error") (lowerStr line) = false)
    (h2 : isSubstrOf (strOf "error") (lowerStr sc) = false)
    (h3 : isSubstrOf (strOf " warn") (lowerStr line) = false)
    (h4 : isSubstrOf (strOf "warn") (lowerStr sc) = false)
    (h5 : isSubstrOf (strOf " info") (lowerStr line) = false)
    (h6 : isSubstrOf (strOf "info") (lowerStr sc) = false)
    (h7 : isSubstrOf (strOf "debug") (lowerStr sc) = true) :
    detectLevel line sc = "debug" := by
  simp [detectLevel, h1, h2, h3, h4, h5, h6, h7]

theorem detectLevel_default (line sc : Str)
    (h1 : isSubstrOf (strOf " error") (lowerStr line) = false)
    (h2 : isSubstrOf (strOf "error") (lowerStr sc) = false)
    (h3 : isSubstrOf (strOf " warn") (lowerStr line) = false)
    (h4 : isSubstrOf (strOf "warn") (lowerStr sc) = false)
    (h5 : isSubstrOf (strOf " info") (lowerStr line) = false)
    (h6 : isSubstrOf (strOf "info") (lowerStr sc) = false)
    (h7 : isSubstrOf (strOf " debug") (lowerStr line) = false)
    (h8 : isSubstrOf (strOf "debug") (lowerStr sc) = false)
    (h9 : isSubstrOf (strOf " fault") (lowerStr line) = false)
    (h10 : isSubstrOf (strOf "fault") (lowerStr sc) = false) :
    detectLevel line sc = "default" := by
  simp [detectLevel, h1, h2, h3, h4, h5, h6, h7, h8, h9, h10]

theorem sInv_step (s : SessionState) (e : SessionEvent)
    (h : SInv s) (hk : killsSucceed e = true) : SInv (stepEvent s e) := by
  cases e with
  | start app t kf =>
      have hkf : kf = false := by simpa [killsSucceed] using hk
      subst hkf
      cases hp : s.logsProcess with
      | none =>
          have ha : s.osAlive = [] := h.1 hp
          refine ⟨?_, ?_⟩
          · intro hcontra
            simp [stepEvent, startStream, hp] at hcontra
          · intro p hsome
            have hpz : p = s.nextId := by
              simp [stepEvent, startStream, hp] at hsome
              exact hsome.symm
            subst hpz
            simp [stepEvent, startStream, hp, ha]
      | some q =>
          have ha : s.osAlive = [q] := h.2 q hp
          refine ⟨?_, ?_⟩
          · intro hcontra
            simp [stepEvent, startStream, hp] at hcontra
          · intro p hsome
            have hpz : p = s.nextId := by
              simp [stepEvent, startStream, hp] at hsome
              exact hsome.symm
            subst hpz
            simp [stepEvent, startStream, hp, ha]
  | stdoutData c => exact ⟨h.1, h.2⟩
  | stderrData c => exact ⟨h.1, h.2⟩
  | errorEvt m => exact ⟨h.1, h.2⟩
  | closeEvt code =>
      have ha : (stepEvent s (SessionEvent.closeEvt code)).osAlive = [] := by
        cases hp : s.logsProcess with
        | none => simp [stepEvent, closeStep, hp, h.1 hp]
        | some q => simp [stepEvent, closeStep, hp, h.2 q hp]
      refine ⟨fun _ => ha, ?_⟩
      intro p hsome
      simp [stepEvent, closeStep] at hsome

theorem sInv_run (es : List SessionEvent) :
    ∀ s : SessionState, SInv s → (∀ e ∈ es, killsSucceed e = true) →
      SInv (runEvents s es) := by
  induction es with
  | nil => intro s h _; exact h
  | cons e t ih =>
      intro s h hk
      exact ih (stepEvent s e) (sInv_step s e h (hk e (by simp)))
        (fun f hf => hk f (by simp [hf]))

theorem sInv_initial : SInv initialState :=
  ⟨fun _ => rfl, fun p hp => by cases hp⟩

theorem splitOnNl_single (a : Str) (h : hasChar '\n' a = false) : splitOnNl a = [a] := by
  induction a with
  | nil => rfl
  | cons c t ih =>
      have hc : (c == '\n') = false ∧ hasChar '\n' t = false := by
        simpa [hasChar, Bool.or_eq_false_iff] using h
      have hne : ¬(c = '\n') := by simpa using hc.1
      simp [splitOnNl, hne, ih hc.2]

theorem runEvents_stdout (chunks : List Str) :
    ∀ s : SessionState, (runEvents s (chunks.map SessionEvent.stdoutData)).sink
      = s.sink ++ (chunks.map (processChunk s.curBase)).flatten := by
  induction chunks with
  | nil => intro s; simp [runEvents]
  | cons c t ih =>
      intro s
      show (runEvents (stdoutStep c s) (t.map SessionEvent.stdoutData)).sink = _
      rw [ih (stdoutStep c s)]
      simp [stdoutStep, List.append_assoc]

/-! ## Claims -/

/-- C1, counterexample: the line
`(MyApp.debug.dylib) [com.app:UI] getpwuid_r did not find a match`
structurally matches the pattern `(<base>.debug.dylib) [<subsystem>:<category>] <msg>`
(it is `structLine [] myApp "com.app:UI" gpLit`), yet classification returns
`NotMatched`, not `Matched`: the stdout filter's containment branch excludes
any line containing the ignorable diagnostic substring, and the line does
not match the loose `(loaded|from|by)` pattern, so it never reaches the
structured extractor. -/
theorem c1_structured_match_counterexample :
    strOf "(MyApp.debug.dylib) [com.app:UI] getpwuid_r did not find a match"
      = structLine [] myApp (strOf "com.app:UI") gpLit
    ∧ classifyLine myApp (structLine [] myApp (strOf "com.app:UI") gpLit)
      = Outcome.notMatched := by
  exact ⟨by decide, by decide⟩

/-- C1 (amended): for every line of the shape
`<pre>(<base>.debug.dylib) [<subsystem>:<category>] <msg>` — with `pre` free
of `'('`, `base` free of `'.'`, subsystem and category free of `']'`,
`category` nonempty and colon-free, `msg` not starting with whitespace —
that does not contain the ignorable diagnostic substring
`getpwuid_r did not find a match`, classification returns `Matched` with
category equal to the text after the last `':'` of the bracketed tag and
message equal to `<msg>` exactly. -/
theorem c1_structured_match_amended (pre base sub cat msg : Str)
    (hpre : hasChar '(' pre = false)
    (hbase : hasChar '.' base = false)
    (hsub : hasChar ']' sub = false)
    (hcat : hasChar ']' cat = false)
    (hcolon : hasChar ':' cat = false)
    (hne : cat ≠ [])
    (hmsg : headNotWs msg = true)
    (hgp : isSubstrOf gpLit (structLine pre base (sub ++ ':' :: cat) msg) = false) :
    ∃ lvl, classifyLine base (structLine pre base (sub ++ ':' :: cat) msg)
      = Outcome.matched cat msg lvl := by
  have htag : hasChar ']' (sub ++ ':' :: cat) = false := by
    simp [hasChar_append, hasChar, hsub, hcat]
  refine ⟨detectLevel (structLine pre base (sub ++ ':' :: cat) msg) (sub ++ ':' :: cat), ?_⟩
  rw [classify_structLine pre base _ msg hpre hbase htag hmsg hgp,
      categoryOf_append sub cat hcolon hne]

/-- Witness for C1: the amended theorem applied to the concrete line
`ts (MyApp.debug.dylib) [com.myapp:UI] hello`. -/
theorem c1_structured_match_witness :
    ∃ lvl, classifyLine myApp (structLine (strOf "ts ") myApp
        (strOf "com.myapp" ++ ':' :: strOf "UI") (strOf "hello"))
      = Outcome.matched (strOf "UI") (strOf "hello") lvl :=
  c1_structured_match_amended (strOf "ts ") myApp (strOf "com.myapp") (strOf "UI")
    (strOf "hello") (by decide) (by decide) (by decide) (by decide) (by decide)
    (by decide) (by decide) (by decide)

/-- C2, counterexample: for the line
`(MyApp.debug.dylib) [com.app:Warn] boot error happened` the category tag
contains `warn`, yet the assigned severity is `error`, not `warning`: the
category-containment test for `warn` sits in the same `else if` chain as
the line-keyword test for `" error"`, which fires first.  The category
override therefore does not always win over message-keyword inference. -/
theorem c2_category_override_counterexample :
    classifyLine myApp (strOf "(MyApp.debug.dylib) [com.app:Warn] boot error happened")
      = Outcome.matched (strOf "Warn") (strOf "boot error happened") "error"
    ∧ classifyLine myApp (strOf "(MyApp.debug.dylib) [com.app:Warn] boot error happened")
      ≠ Outcome.matched (strOf "Warn") (strOf "boot error happened") "warning" := by
  exact ⟨by decide, by decide⟩

/-- C2 (amended): the category label is tested inside the same precedence
chain as the space-prefixed line keywords, as a disjunct at each level
(`error`, then `warn`, then `info`, then `debug`, then `fault`).  A
category containing `error` therefore always forces severity `error`
regardless of the message; a category containing `warn` (resp. `debug`)
forces `warning` (resp. `debug`) only when no higher-precedence line or
category keyword fires.  In particular a record with category
`com.app:NetworkError` gets severity `error` even though its message
contains no error keyword. -/
theorem c2_category_override_amended :
    (∀ line sc : Str, isSubstrOf (strOf "error") (lowerStr sc) = true →
        detectLevel line sc = "error")
    ∧ (∀ line sc : Str, isSubstrOf (strOf "warn") (lowerStr sc) = true →
        isSubstrOf (strOf " error") (lowerStr line) = false →
        isSubstrOf (strOf "error") (lowerStr sc) = false →
        detectLevel line sc = "warning")
    ∧ (∀ line sc : Str, isSubstrOf (strOf "debug") (lowerStr sc) = true →
        isSubstrOf (strOf " error") (lowerStr line) = false →
        isSubstrOf (strOf "error") (lowerStr sc) = false →
        isSubstrOf (strOf " warn") (lowerStr line) = false →
        isSubstrOf (strOf "warn") (lowerStr sc) = false →
        isSubstrOf (strOf " info") (lowerStr line) = false →
        isSubstrOf (strOf "info") (lowerStr sc) = false →
        detectLevel line sc = "debug")
    ∧ classifyLine myApp (strOf "(MyApp.debug.dylib) [com.app:NetworkError] all good")
      = Outcome.matched (strOf "NetworkError") (strOf "all good") "error" := by
  refine ⟨?_, ?_, ?_, by decide⟩
  · intro line sc h
    exact detectLevel_error_of_cat line sc h
  · intro line sc h3 h1 h2
    exact detectLevel_warning_of_cat line sc h1 h2 h3
  · intro line sc h7 h1 h2 h3 h4 h5 h6
    exact detectLevel_debug_of_cat line sc h1 h2 h3 h4 h5 h6 h7

/-- Witness for C2: the amended theorem applied at concrete categories. -/
theorem c2_category_override_witness :
    detectLevel (strOf "x") (strOf "a:NetworkError") = "error"
    ∧ detectLevel (strOf "x") (strOf "a:Warn") = "warning"
    ∧ detectLevel (strOf "x") (strOf "a:Debug") = "debug" :=
  ⟨c2_category_override_amended.1 (strOf "x") (strOf "a:NetworkError") (by decide),
   c2_category_override_amended.2.1 (strOf "x") (strOf "a:Warn")
     (by decide) (by decide) (by decide),
   c2_category_override_amended.2.2.1 (strOf "x") (strOf "a:Debug")
     (by decide) (by decide) (by decide) (by decide) (by decide) (by decide) (by decide)⟩

/-- C3, counterexample: the message `request timeout while loading` with
the neutral category `com.myapp:UI` yields severity `default`, not
`warning`: the code's keyword inference only looks for the space-prefixed
substrings `" error"`, `" warn"`, `" info"`, `" debug"`, `" fault"` in the
whole line — none of the claimed keyword sets (`fail`, `exception`,
`crash`, `invalid`, `unable`, `not found`, `deprecat`, `unresponsive`,
`elevated`, `excessive`, `timeout`, `slow`) is tested. -/
theorem c3_keyword_severity_counterexample :
    classifyLine myApp (strOf "(MyApp.debug.dylib) [com.myapp:UI] request timeout while loading")
      = Outcome.matched (strOf "UI") (strOf "request timeout while loading") "default"
    ∧ classifyLine myApp (strOf "(MyApp.debug.dylib) [com.myapp:UI] request timeout while loading")
      ≠ Outcome.matched (strOf "UI") (strOf "request timeout while loading") "warning" := by
  exact ⟨by decide, by decide⟩

/-- C3 (amended): message-keyword severity inference tests only the
space-prefixed substrings `" error"` and `" warn"` (then `" info"`,
`" debug"`, `" fault"`) in the whole lowercased line: a line containing
`" error"` gets severity `error`; one containing `" warn"` but no
higher-precedence keyword gets `warning`; a line and category containing
none of the five keyword pairs — such as
`request timeout while loading` under a neutral category — gets the
severity `default`. -/
theorem c3_keyword_severity_amended :
    (∀ line sc : Str, isSubstrOf (strOf " error") (lowerStr line) = true →
        detectLevel line sc = "error")
    ∧ (∀ line sc : Str, isSubstrOf (strOf " warn") (lowerStr line) = true →
        isSubstrOf (strOf " error") (lowerStr line) = false →
        isSubstrOf (strOf "error") (lowerStr sc) = false →
        detectLevel line sc = "warning")
    ∧ (∀ line sc : Str,
        isSubstrOf (strOf " error") (lowerStr line) = false →
        isSubstrOf (strOf "error") (lowerStr sc) = false →
        isSubstrOf (strOf " warn") (lowerStr line) = false →
        isSubstrOf (strOf "warn") (lowerStr sc) = false →
        isSubstrOf (strOf " info") (lowerStr line) = false →
        isSubstrOf (strOf "info") (lowerStr sc) = false →
        isSubstrOf (strOf " debug") (lowerStr line) = false →
        isSubstrOf (strOf "debug") (lowerStr sc) = false →
        isSubstrOf (strOf " fault") (lowerStr line) = false →
        isSubstrOf (strOf "fault") (lowerStr sc) = false →
        detectLevel line sc = "default") := by
  refine ⟨?_, ?_, ?_⟩
  · intro line sc h
    exact detectLevel_error_of_line line sc h
  · intro line sc h3 h1 h2
    exact detectLevel_warning_of_line line sc h1 h2 h3
  · intro line sc h1 h2 h3 h4 h5 h6 h7 h8 h9 h10
    exact detectLevel_default line sc h1 h2 h3 h4 h5 h6 h7 h8 h9 h10

/-- Witness for C3: the amended theorem applied at concrete lines,
including the claim's own scenario message, which lands on `default`. -/
theorem c3_keyword_severity_witness :
    detectLevel (strOf "boot error happened") (strOf "a:UI") = "error"
    ∧ detectLevel (strOf "a warning came") (strOf "a:UI") = "warning"
    ∧ detectLevel (strOf "request timeout while loading") (strOf "com.myapp:UI") = "default" :=
  ⟨c3_keyword_severity_amended.1 (strOf "boot error happened") (strOf "a:UI") (by decide),
   c3_keyword_severity_amended.2.1 (strOf "a warning came") (strOf "a:UI")
     (by decide) (by decide) (by decide),
   c3_keyword_severity_amended.2.2 (strOf "request timeout while loading") (strOf "com.myapp:UI")
     (by decide) (by decide) (by decide) (by decide) (by decide)
     (by decide) (by decide) (by decide) (by decide) (by decide)⟩

/-- C4, counterexample: the claim's own scenario line
`... (MyApp.debug.dylib) [com.myapp:UI] button tapped` triggers no
severity keyword, but its block is rendered with the `default` glyph 📝,
not the claimed info glyph ℹ️: the code initialises `logLevel` to
`"default"`, not `"info"`. -/
theorem c4_default_glyph_counterexample :
    emitLine myApp (strOf "... (MyApp.debug.dylib) [com.myapp:UI] button tapped")
      = [strOf "📝  [UI]", strOf "button tapped", blockSep]
    ∧ emitLine myApp (strOf "... (MyApp.debug.dylib) [com.myapp:UI] button tapped")
      ≠ [strOf "ℹ️  [UI]", strOf "button tapped", blockSep] := by
  exact ⟨by decide, by decide⟩

/-- C4 (amended): for every structurally matching line whose line text and
category trigger no severity keyword, the severity is `default`, so its
block is rendered with the glyph 📝 followed by `[<category>]`, the
message line, and the separator line. -/
theorem c4_default_glyph_amended (pre base sub cat msg : Str)
    (hpre : hasChar '(' pre = false)
    (hbase : hasChar '.' base = false)
    (hsub : hasChar ']' sub = false)
    (hcat : hasChar ']' cat = false)
    (hcolon : hasChar ':' cat = false)
    (hne : cat ≠ [])
    (hmsg : headNotWs msg = true)
    (hgp : isSubstrOf gpLit (structLine pre base (sub ++ ':' :: cat) msg) = false)
    (h1 : isSubstrOf (strOf " error") (lowerStr (structLine pre base (sub ++ ':' :: cat) msg)) = false)
    (h2 : isSubstrOf (strOf "error") (lowerStr (sub ++ ':' :: cat)) = false)
    (h3 : isSubstrOf (strOf " warn") (lowerStr (structLine pre base (sub ++ ':' :: cat) msg)) = false)
    (h4 : isSubstrOf (strOf "warn") (lowerStr (sub ++ ':' :: cat)) = false)
    (h5 : isSubstrOf (strOf " info") (lowerStr (structLine pre base (sub ++ ':' :: cat) msg)) = false)
    (h6 : isSubstrOf (strOf "info") (lowerStr (sub ++ ':' :: cat)) = false)
    (h7 : isSubstrOf (strOf " debug") (lowerStr (structLine pre base (sub ++ ':' :: cat) msg)) = false)
    (h8 : isSubstrOf (strOf "debug") (lowerStr (sub ++ ':' :: cat)) = false)
    (h9 : isSubstrOf (strOf " fault") (lowerStr (structLine pre base (sub ++ ':' :: cat) msg)) = false)
    (h10 : isSubstrOf (strOf "fault") (lowerStr (sub ++ ':' :: cat)) = false) :
    emitLine base (structLine pre base (sub ++ ':' :: cat) msg)
      = [strOf "📝  [" ++ cat ++ strOf "]", msg, blockSep] := by
  have htag : hasChar ']' (sub ++ ':' :: cat) = false := by
    simp [hasChar_append, hasChar, hsub, hcat]
  have hlvl := detectLevel_default _ _ h1 h2 h3 h4 h5 h6 h7 h8 h9 h10
  rw [emitLine, classify_structLine pre base _ msg hpre hbase htag hmsg hgp,
      categoryOf_append sub cat hcolon hne, hlvl]
  show [strOf "📝" ++ (strOf "  [" ++ (cat ++ strOf "]")), msg, blockSep] = _
  rw [show strOf "📝  [" = strOf "📝" ++ strOf "  [" from rfl]
  simp [List.append_assoc]

/-- Witness for C4: the amended theorem applied to the scenario line
`... (MyApp.debug.dylib) [com.myapp:UI] button tapped`. -/
theorem c4_default_glyph_witness :
    emitLine myApp (structLine (strOf "... ") myApp
        (strOf "com.myapp" ++ ':' :: strOf "UI") (strOf "button tapped"))
      = [strOf "📝  [" ++ strOf "UI" ++ strOf "]", strOf "button tapped", blockSep] :=
  c4_default_glyph_amended (strOf "... ") myApp (strOf "com.myapp") (strOf "UI")
    (strOf "button tapped") (by decide) (by decide) (by decide) (by decide)
    (by decide) (by decide) (by decide) (by decide) (by decide) (by decide)
    (by decide) (by decide) (by decide) (by decide) (by decide) (by decide)
    (by decide) (by decide)

/-- C5, counterexample: the line
`loaded MyApp.debug.dylib getpwuid_r did not find a match` contains the
ignorable diagnostic substring — the only benign system-noise exclusion
present in this source — yet it is NOT suppressed: it matches the loose
`(loaded|from|by)` pattern, which is tested before (and independently of)
the containment branch carrying the exclusion, so the line is emitted as
raw passthrough.  The suppression is therefore not checked before all
other matching rules. -/
theorem c5_noise_suppression_counterexample :
    isSubstrOf gpLit (strOf "loaded MyApp.debug.dylib getpwuid_r did not find a match") = true
    ∧ classifyLine myApp (strOf "loaded MyApp.debug.dylib getpwuid_r did not find a match")
      = Outcome.rawPassthrough (strOf "loaded MyApp.debug.dylib getpwuid_r did not find a match")
    ∧ emitLine myApp (strOf "loaded MyApp.debug.dylib getpwuid_r did not find a match") ≠ [] := by
  exact ⟨by decide, by decide, by decide⟩

/-- C5 (amended): a line containing the ignorable diagnostic substring
`getpwuid_r did not find a match` is suppressed (classification returns
`NotMatched`, no display output) exactly when it does not match the loose
`(loaded|from|by) .*<base>.debug.dylib` pattern: the exclusion lives only
on the dylib-token containment branch of the filter. -/
theorem c5_noise_suppression_amended (base line : Str)
    (hgp : isSubstrOf gpLit line = true)
    (hloose : logPatternTest base line = false) :
    classifyLine base line = Outcome.notMatched ∧ emitLine base line = [] := by
  have hfil : filterPasses base line = false := by
    simp [filterPasses, hloose, hgp]
  constructor
  · simp [classifyLine, hfil]
  · simp [emitLine, classifyLine, hfil, formatOutcome]

/-- Witness for C5: the amended theorem applied to a diagnostic line that
contains the dylib token but no loose-pattern keyword. -/
theorem c5_noise_suppression_witness :
    classifyLine myApp (strOf "xx MyApp.debug.dylib getpwuid_r did not find a match")
      = Outcome.notMatched
    ∧ emitLine myApp (strOf "xx MyApp.debug.dylib getpwuid_r did not find a match") = [] :=
  c5_noise_suppression_amended myApp
    (strOf "xx MyApp.debug.dylib getpwuid_r did not find a match")
    (by decide) (by decide)

/-- C6, counterexample: a stderr chunk consisting of
`getpwuid_r did not find a match` is NOT suppressed: the stderr handler
appends an error-tagged line unconditionally, with no known-harmless
filter at all. -/
theorem c6_stderr_filter_counterexample :
    (stderrStep gpLit initialState).sink
      = [strOf "❌ Error: getpwuid_r did not find a match"]
    ∧ (stderrStep gpLit initialState).sink ≠ [] := by
  exact ⟨by decide, by decide⟩

/-- C6 (amended): every stderr data chunk — including chunks containing
the uid-lookup diagnostic — emits exactly one error-tagged display line;
there is no harmless-substring filtering.  The handler changes nothing
else, so no stderr chunk is ever fatal to the session. -/
theorem c6_stderr_always_emits (s : SessionState) (chunk : Str) :
    (stderrStep chunk s).sink = s.sink ++ [strOf "❌ Error: " ++ chunk]
    ∧ (stderrStep chunk s).logsProcess = s.logsProcess
    ∧ (stderrStep chunk s).curBase = s.curBase
    ∧ (stderrStep chunk s).nextId = s.nextId
    ∧ (stderrStep chunk s).killSignals = s.killSignals
    ∧ (stderrStep chunk s).osAlive = s.osAlive :=
  ⟨rfl, rfl, rfl, rfl, rfl, rfl⟩

/-- C7: after any sequence of events whose best-effort kills succeed, at
most one subprocess is alive; a start whose kill fails proceeds exactly
like one whose kill succeeds on every observable field (failures are
swallowed); every start resets the display sink to exactly the start
banner, installs a fresh handle, and any classified output lands after the
banner; and two consecutive starts from any invariant-respecting state
leave exactly one live subprocess. -/
theorem c7_single_subprocess :
    (∀ es : List SessionEvent, (∀ e ∈ es, killsSucceed e = true) →
        (runEvents initialState es).osAlive.length ≤ 1)
    ∧ (∀ (s : SessionState) (app t : Str),
        (startStream app t true s).logsProcess = (startStream app t false s).logsProcess
        ∧ (startStream app t true s).sink = (startStream app t false s).sink
        ∧ (startStream app t true s).curBase = (startStream app t false s).curBase
        ∧ (startStream app t true s).nextId = (startStream app t false s).nextId
        ∧ (startStream app t true s).killSignals = (startStream app t false s).killSignals)
    ∧ (∀ (s : SessionState) (app t : Str) (kf : Bool),
        (startStream app t kf s).sink = bannerLines (stripDotApp app) t
        ∧ (startStream app t kf s).logsProcess = some s.nextId
        ∧ ∀ c : Str, (stdoutStep c (startStream app t kf s)).sink
            = bannerLines (stripDotApp app) t ++ processChunk (stripDotApp app) c)
    ∧ (∀ (s : SessionState) (app1 t1 app2 t2 : Str), SInv s →
        (startStream app2 t2 false (startStream app1 t1 false s)).osAlive = [s.nextId + 1]
        ∧ (startStream app2 t2 false (startStream app1 t1 false s)).logsProcess
            = some (s.nextId + 1)) := by
  refine ⟨?_, ?_, ?_, ?_⟩
  · intro es hk
    have hinv := sInv_run es initialState sInv_initial hk
    cases hp : (runEvents initialState es).logsProcess with
    | none => simp [hinv.1 hp]
    | some p => simp [hinv.2 p hp]
  · intro s app t
    refine ⟨?_, ?_, ?_, ?_, ?_⟩ <;> cases hp : s.logsProcess <;> simp [startStream, hp]
  · intro s app t kf
    refine ⟨?_, ?_, ?_⟩
    · cases hp : s.logsProcess <;> simp [startStream, hp]
    · cases hp : s.logsProcess <;> simp [startStream, hp]
    · intro c
      cases hp : s.logsProcess <;> simp [startStream, stdoutStep, hp]
  · intro s app1 t1 app2 t2 hinv
    cases hp : s.logsProcess with
    | none =>
        have ha := hinv.1 hp
        constructor <;> simp [startStream, hp, ha, List.erase_cons_head]
    | some q =>
        have ha := hinv.2 q hp
        constructor <;> simp [startStream, hp, ha, List.erase_cons_head]

/-- Witness for C7: the theorem applied to a concrete two-start event
sequence and to two concrete consecutive starts from the initial state. -/
theorem c7_single_subprocess_witness :
    (runEvents initialState
        [SessionEvent.start (strOf "MyApp.app") (strOf "10:00:00") false,
         SessionEvent.start (strOf "Other.app") (strOf "10:00:05") false]).osAlive.length ≤ 1
    ∧ (startStream (strOf "Other.app") (strOf "10:00:05") false
        (startStream (strOf "MyApp.app") (strOf "10:00:00") false initialState)).osAlive
      = [initialState.nextId + 1] :=
  ⟨c7_single_subprocess.1
      [SessionEvent.start (strOf "MyApp.app") (strOf "10:00:00") false,
       SessionEvent.start (strOf "Other.app") (strOf "10:00:05") false]
      (by decide),
   (c7_single_subprocess.2.2.2 initialState (strOf "MyApp.app") (strOf "10:00:00")
      (strOf "Other.app") (strOf "10:00:05") sInv_initial).1⟩

/-- C8: a close event with a non-zero, non-null exit code appends exactly
one warning-tagged status line and clears the active handle; a clean close
(code 0) appends nothing but also clears the handle; and a start issued
after any close sends no termination signal, because the handle is already
null. -/
theorem c8_close_handler :
    (∀ (s : SessionState) (c : Int), c ≠ 0 →
        (closeStep (some c) s).sink = s.sink ++ [exitWarnLine c]
        ∧ (closeStep (some c) s).logsProcess = none)
    ∧ (∀ s : SessionState,
        (closeStep (some 0) s).sink = s.sink
        ∧ (closeStep (some 0) s).logsProcess = none)
    ∧ (∀ (s : SessionState) (code : Option Int) (app t : Str) (kf : Bool),
        (startStream app t kf (closeStep code s)).killSignals = s.killSignals) := by
  refine ⟨?_, ?_, ?_⟩
  · intro s c hc
    exact ⟨by simp [closeStep, hc], by simp [closeStep]⟩
  · intro s
    exact ⟨by simp [closeStep], by simp [closeStep]⟩
  · intro s code app t kf
    have hnone : (closeStep code s).logsProcess = none := by simp [closeStep]
    have hks : (closeStep code s).killSignals = s.killSignals := by
      cases code with
      | none => rfl
      | some c =>
          by_cases h0 : c = 0 <;> simp [closeStep, h0]
    simp [startStream, hnone, hks]

/-- Witness for C8: the theorem applied to an abnormal close with exit
code 1 from the initial state. -/
theorem c8_close_handler_witness :
    (closeStep (some 1) initialState).sink = initialState.sink ++ [exitWarnLine 1]
    ∧ (closeStep (some 1) initialState).logsProcess = none :=
  c8_close_handler.1 initialState 1 (by decide)

/-- C9: stdout chunks are processed independently — the sink after a
sequence of stdout events is the concatenation of the per-chunk outputs,
with no residual text carried between chunks; a newline-free chunk is
processed as exactly one line; and a log line split at a chunk boundary is
processed as two separate lines: concretely, splitting
`loaded MyApp.debug.dylib hi` into `loaded MyApp.de` and `bug.dylib hi`
drops both halves, while the unsplit chunk is emitted. -/
theorem c9_no_chunk_buffering :
    (∀ (s : SessionState) (chunks : List Str),
        (runEvents s (chunks.map SessionEvent.stdoutData)).sink
          = s.sink ++ (chunks.map (processChunk s.curBase)).flatten)
    ∧ (∀ base a b : Str, hasChar '\n' a = false → hasChar '\n' b = false →
        processChunk base a ++ processChunk base b = emitLine base a ++ emitLine base b)
    ∧ (processChunk myApp (strOf "loaded MyApp.de")
        ++ processChunk myApp (strOf "bug.dylib hi") = []
      ∧ processChunk myApp (strOf "loaded MyApp.debug.dylib hi")
        = [strOf "loaded MyApp.debug.dylib hi"]) := by
  refine ⟨?_, ?_, by decide, by decide⟩
  · intro s chunks
    exact runEvents_stdout chunks s
  · intro base a b ha hb
    simp [processChunk, splitOnNl_single a ha, splitOnNl_single b hb]

/-- Witness for C9: the theorem applied to two concrete newline-free
chunks. -/
theorem c9_no_chunk_buffering_witness :
    processChunk myApp (strOf "abc") ++ processChunk myApp (strOf "def")
      = emitLine myApp (strOf "abc") ++ emitLine myApp (strOf "def") :=
  c9_no_chunk_buffering.2.1 myApp (strOf "abc") (strOf "def") (by decide) (by decide)

/-- C10: a line matching the loose case-insensitive
`(loaded|from|by) .*<base>.debug.dylib` pattern is emitted even when it
contains the ignorable diagnostic substring
`getpwuid_r did not find a match`: the exclusion is applied only on the
dylib-token containment branch of the filter, not on the loose-pattern
branch. -/
theorem c10_loose_pattern_bypasses_exclusion (base line : Str)
    (hl : logPatternTest base line = true)
    (_hgp : isSubstrOf gpLit line = true) :
    emitLine base line ≠ [] := by
  have hfil : filterPasses base line = true := by
    simp [filterPasses, hl]
  cases houter : outerScan line with
  | none => simp [emitLine, classifyLine, hfil, houter, formatOutcome]
  | some r => simp [emitLine, classifyLine, hfil, houter, formatOutcome]

/-- Witness for C10: the theorem applied to the concrete line
`loaded MyApp.debug.dylib getpwuid_r did not find a match`. -/
theorem c10_loose_pattern_bypasses_exclusion_witness :
    emitLine myApp (strOf "loaded MyApp.debug.dylib getpwuid_r did not find a match") ≠ [] :=
  c10_loose_pattern_bypasses_exclusion myApp
    (strOf "loaded MyApp.debug.dylib getpwuid_r did not find a match")
    (by decide) (by decide)

end Sweetpad
